import Mathlib

/-!
Shallow embedding of pickup-news (src/main.go), a scheduled notification
job: for each keyword rule it queries a news API over a date range and, if
the result count exceeds the rule's threshold, posts a message to a Slack
webhook.  External effects (environment loading, S3 fetch, news API calls,
webhook posts) are modelled as explicit oracle inputs; a call to os.Exit
is modelled by the Outcome.exit constructor.
-/

/-- Environment configuration (struct Env in main.go). -/
structure Env where
  Apikey : String
  WebhookURL : String
deriving DecidableEq, Repr

/-- Invocation parameters (struct RequestParameter in main.go). -/
structure RequestParameter where
  From : String
  To : String
  S3BacketName : String
  S3ObjectKey : String
  Keyword : String
  NoticeLowerLimit : Int
deriving DecidableEq, Repr

/-- One keyword rule (struct PickupKey in main.go). -/
structure PickupKey where
  Keyword : String
  NoticeLowerLimit : Int
deriving DecidableEq, Repr

/-- Source of one article (nested struct in NewsAPIRespons). -/
structure ArticleSource where
  ID : String
  Name : String
deriving DecidableEq, Repr

/-- One article of the decoded news-API response.  PublishedAt is a
time.Time in Go; it is carried as its RFC3339 text here since no logic
reads it. -/
structure Article where
  Source : ArticleSource
  Author : String
  Title : String
  Description : String
  URL : String
  URLToImage : String
  PublishedAt : String
  Content : String
deriving DecidableEq, Repr

/-- Decoded news-API response (struct NewsAPIRespons in main.go). -/
structure NewsAPIRespons where
  Status : String
  TotalResults : Int
  Articles : List Article
deriving DecidableEq, Repr

/-- Result of one news-API call in the loop body of HandleRequest:
either a transport failure (client.Do or ReadAll error, both fatal in the
Go code), or an HTTP status code paired with the json.Unmarshal outcome
of the body. -/
abbrev NewsFetch : Type := Except String (Int × Except String NewsAPIRespons)

/-- Result of one webhook post inside notificationSlack: either a
transport failure (fatal in the Go code) or an HTTP status code. -/
abbrev SlackResult : Type := Except String Int

/-- How a run ends: os.Exit with a code, or a normal return of the string
result and the Go error slot of HandleRequest. -/
inductive Outcome where
  | exit (code : Nat)
  | ret (msg : String) (err : Option String)
deriving DecidableEq, Repr

/-- Calendar date, used to model time.Time values at day granularity. -/
structure CivilDate where
  year : Nat
  month : Nat
  day : Nat
deriving DecidableEq, Repr

def isLeapYear (y : Nat) : Bool :=
  y % 4 = 0 && (y % 100 != 0 || y % 400 = 0)

def daysInMonth (y m : Nat) : Nat :=
  if m = 2 then (if isLeapYear y then 29 else 28)
  else if m = 4 || m = 6 || m = 9 || m = 11 then 30
  else 31

/-- Previous calendar day: the effect of t.AddDate(0, 0, -1) in Go, which
subtracts one day and normalizes across month and year boundaries. -/
def prevDay (d : CivilDate) : CivilDate :=
  if 2 ≤ d.day then ⟨d.year, d.month, d.day - 1⟩
  else if 2 ≤ d.month then ⟨d.year, d.month - 1, daysInMonth d.year (d.month - 1)⟩
  else ⟨d.year - 1, 12, 31⟩

/-- Next calendar day, used for the UTC-to-Tokyo day rollover. -/
def nextDay (d : CivilDate) : CivilDate :=
  if d.day < daysInMonth d.year d.month then ⟨d.year, d.month, d.day + 1⟩
  else if d.month < 12 then ⟨d.year, d.month + 1, 1⟩
  else ⟨d.year + 1, 1, 1⟩

def pad2 (n : Nat) : String :=
  if n < 10 then "0" ++ toString n else toString n

def pad4 (n : Nat) : String :=
  if n < 10 then "000" ++ toString n
  else if n < 100 then "00" ++ toString n
  else if n < 1000 then "0" ++ toString n
  else toString n

/-- Go t.Format with layout 2006-01-02: zero-padded year, month, day. -/
def formatDate (d : CivilDate) : String :=
  pad4 d.year ++ "-" ++ pad2 d.month ++ "-" ++ pad2 d.day

/-- Civil date in Asia/Tokyo for a current instant given as a UTC date and
a UTC hour (0-23).  Asia/Tokyo is a fixed UTC+9 offset with no daylight
saving, and the FixedZone fallback in the Go code is the same +9 hours, so
the local date is the UTC date, rolled to the next day from 15:00 UTC. -/
def tokyoDateOfUTC (d : CivilDate) (hour : Nat) : CivilDate :=
  if hour + 9 < 24 then d else nextDay d

/-- initRequestParameter from main.go: fills an empty From with the Tokyo
date minus one day and an empty To with the Tokyo date, both formatted
2006-01-02, and leaves non-empty fields unchanged.  time.Now is modelled
by the utcDate and utcHour inputs. -/
def initRequestParameter (utcDate : CivilDate) (utcHour : Nat)
    (rp : RequestParameter) : RequestParameter :=
  let t := tokyoDateOfUTC utcDate utcHour
  let fromVal := if rp.From = "" then formatDate (prevDay t) else rp.From
  let toVal := if rp.To = "" then formatDate t else rp.To
  ⟨fromVal, toVal, rp.S3BacketName, rp.S3ObjectKey, rp.Keyword, rp.NoticeLowerLimit⟩

/-- loadPickupKeys from main.go.  The S3 fetch and the json.Unmarshal of
the fetched bytes are modelled by the s3 oracle: outer error is a
readS3File failure, inner error an unmarshal failure; both exit the
process in Go, rendered here as an error result that HandleRequest turns
into Outcome.exit 1. -/
def loadPickupKeys (rp : RequestParameter)
    (s3 : Except String (Except String (List PickupKey))) :
    Except String (List PickupKey) :=
  if rp.S3BacketName = "" ∨ rp.S3ObjectKey = "" then
    Except.ok [⟨rp.Keyword, rp.NoticeLowerLimit⟩]
  else
    match s3 with
    | Except.error e => Except.error e
    | Except.ok (Except.error e) => Except.error e
    | Except.ok (Except.ok keys) => Except.ok keys

/-- The below-threshold early-return string of HandleRequest, built with
fmt.Sprintf on the two ints. -/
def lowerMessage (totalResults noticeLowerLimit : Int) : String :=
  "TotalResult is lower NoticeLowerLimit. TotalResult:" ++ toString totalResults
    ++ ", NoticeLowerLimit:" ++ toString noticeLowerLimit ++ "\n"

/-- The message header built in the loop body of HandleRequest. -/
def messageHeader (keyword : String) (totalResults : Int) (fromD toD : String) : String :=
  "<!channel> Keyword: " ++ keyword ++ " resultCount: " ++ toString totalResults
    ++ " from: " ++ fromD ++ " to: " ++ toD ++ "\n"

/-- The bytes.Buffer loop of HandleRequest: one numbered line per article,
the counter starting at the given index. -/
def messageDetail (i : Nat) : List Article → String
  | [] => ""
  | a :: rest =>
      "No." ++ toString (i + 1) ++ ", " ++ a.Title ++ ", " ++ a.URL ++ "\n"
        ++ messageDetail (i + 1) rest

/-- The string params of notificationSlack: the message spliced verbatim
into a JSON text literal by string concatenation, with no escaping. -/
def slackParams (message : String) : String :=
  "\x7b\"text\":\"" ++ message ++ "\"\x7d"

/-- The HTTP request notificationSlack builds and sends. -/
structure SlackRequest where
  method : String
  url : String
  contentType : String
  body : String
deriving DecidableEq, Repr

/-- notificationSlack from main.go, request-construction part: a POST to
the configured webhook URL with a JSON content type and the unescaped
params body. -/
def notificationSlackRequest (env : Env) (message : String) : SlackRequest :=
  ⟨"POST", env.WebhookURL, "application/json", slackParams message⟩

/-- The for-loop of HandleRequest over the keyword rules.  news gives the
outcome of the k-th news-API call and slack the outcome of the j-th
webhook post; the pair returned is the run outcome together with the list
of messages passed to notificationSlack, in call order.  A transport or
decode failure is Outcome.exit 1 as in the Go code; a non-200 status from
either HTTP call is only logged there and so has no effect here. -/
def handleLoop (p : RequestParameter) (news : Nat → NewsFetch)
    (slack : Nat → SlackResult) :
    List PickupKey → Nat → Nat → Outcome × List String
  | [], _, _ => (Outcome.ret "Success notification." none, [])
  | key :: keys, i, j =>
    match news i with
    | Except.error _ => (Outcome.exit 1, [])
    | Except.ok (_, Except.error _) => (Outcome.exit 1, [])
    | Except.ok (_, Except.ok naResp) =>
      if naResp.TotalResults ≤ key.NoticeLowerLimit then
        (Outcome.ret (lowerMessage naResp.TotalResults key.NoticeLowerLimit) none, [])
      else
        let msg := messageHeader key.Keyword naResp.TotalResults p.From p.To
          ++ messageDetail 0 naResp.Articles
        match slack j with
        | Except.error _ => (Outcome.exit 1, [msg])
        | Except.ok _ =>
          let r := handleLoop p news slack keys (i + 1) (j + 1)
          (r.1, msg :: r.2)

/-- HandleRequest from main.go.  envRes models envconfig.Process, s3 the
blob fetch and parse used by loadPickupKeys, news and slack the two HTTP
oracles, utcDate and utcHour the current instant.  http.NewRequest on the
constant valid news URL cannot fail and is not given an oracle.  The
returned list records every message handed to notificationSlack. -/
def HandleRequest (envRes : Except String Env)
    (s3 : Except String (Except String (List PickupKey)))
    (news : Nat → NewsFetch) (slack : Nat → SlackResult)
    (utcDate : CivilDate) (utcHour : Nat)
    (rp : RequestParameter) : Outcome × List String :=
  match envRes with
  | Except.error _ => (Outcome.exit 1, [])
  | Except.ok _ =>
    let p := initRequestParameter utcDate utcHour rp
    match loadPickupKeys p s3 with
    | Except.error _ => (Outcome.exit 1, [])
    | Except.ok keys => handleLoop p news slack keys 0 0

/-- One numbered article line, as the spec states it. -/
def articleLine (pa : Nat × Article) : String :=
  "No." ++ toString (pa.1 + 1) ++ ", " ++ pa.2.Title ++ ", " ++ pa.2.URL ++ "\n"

/-- The article lines as the spec states them: one line per article of the
response, numbered from 1, in input order, concatenated. -/
def articleLines (arts : List Article) : String :=
  ((arts.enum.map articleLine).foldr (fun a b => a ++ b) "")

/-- Escape of one character per the JSON string grammar, the model of
what a structured JSON encoder would emit for comparison with
slackParams. -/
def escapeChar (c : Char) : String :=
  if c = '"' then "\\\"" else if c = '\\' then "\\\\" else String.singleton c

def jsonEscape (s : String) : String :=
  String.join (s.data.map escapeChar)

/-- Lower-casing of a member name, for the case-insensitive field match
of encoding/json. -/
def lowerName (s : String) : String := String.mk (s.data.map Char.toLower)

/-- JSON value, as far as the PickupKey decoder needs one. -/
inductive JsonValue where
  | str (s : String)
  | num (n : Int)
  | other
deriving DecidableEq, Repr

/-- Assignment of one JSON object member to a PickupKey under the
encoding/json field-matching contract used by loadPickupKeys: member
names match the json tags of PickupKey case-insensitively; a member
matching no field is ignored.  A type-mismatched member, which
json.Unmarshal reports as an error, is ignored here; no claim depends on
that case. -/
def setPickupKeyField (pk : PickupKey) (kv : String × JsonValue) : PickupKey :=
  if lowerName kv.1 = "keyword" then
    match kv.2 with
    | JsonValue.str s => ⟨s, pk.NoticeLowerLimit⟩
    | _ => pk
  else if lowerName kv.1 = "noticelowerlimit" then
    match kv.2 with
    | JsonValue.num n => ⟨pk.Keyword, n⟩
    | _ => pk
  else pk

/-- Model of json.Unmarshal of one object of the external list into a
PickupKey: decoding starts from the Go zero value (empty keyword, zero
limit) and assigns the members in order, so an absent member leaves its
field at the zero value. -/
def decodePickupKey (fields : List (String × JsonValue)) : PickupKey :=
  fields.foldl setPickupKeyField ⟨"", 0⟩

theorem messageDetail_eq_articleLines (n : Nat) (arts : List Article) :
    messageDetail n arts =
      ((arts.enumFrom n).map articleLine).foldr (fun a b => a ++ b) "" := by
  induction arts generalizing n with
  | nil => simp [messageDetail]
  | cons a rest ih => simp [messageDetail, List.enumFrom, articleLine, ih]

/-- C4: loadPickupKeys takes the parsed external list exactly when both
the bucket name and the object key are non-empty, and otherwise builds the
single inline rule from the request. -/
theorem loadPickupKeys_source_selection (rp : RequestParameter)
    (s3 : Except String (Except String (List PickupKey))) :
    (rp.S3BacketName ≠ "" → rp.S3ObjectKey ≠ "" →
      ∀ keys, s3 = Except.ok (Except.ok keys) →
        loadPickupKeys rp s3 = Except.ok keys)
    ∧ ((rp.S3BacketName = "" ∨ rp.S3ObjectKey = "") →
      loadPickupKeys rp s3 = Except.ok [⟨rp.Keyword, rp.NoticeLowerLimit⟩]) := by
  constructor
  · intro hb hk keys hs3
    subst hs3
    simp [loadPickupKeys, hb, hk]
  · intro h
    simp [loadPickupKeys, h]

theorem loadPickupKeys_source_selection_witness :
    loadPickupKeys ⟨"", "", "bucket", "key", "go", 3⟩
      (Except.ok (Except.ok [⟨"x", 5⟩, ⟨"y", 7⟩])) =
        Except.ok [⟨"x", 5⟩, ⟨"y", 7⟩]
    ∧ loadPickupKeys ⟨"", "", "", "key", "go", 3⟩
      (Except.ok (Except.ok [⟨"x", 5⟩, ⟨"y", 7⟩])) = Except.ok [⟨"go", 3⟩] :=
  ⟨(loadPickupKeys_source_selection _ _).1 (by decide) (by decide) _ rfl,
   (loadPickupKeys_source_selection _ _).2 (Or.inl rfl)⟩

/-- C6: when From and To are both non-empty, initRequestParameter passes
them through unchanged. -/
theorem initRequestParameter_explicit_dates_unchanged (utcDate : CivilDate)
    (utcHour : Nat) (rp : RequestParameter)
    (hf : rp.From ≠ "") (ht : rp.To ≠ "") :
    (initRequestParameter utcDate utcHour rp).From = rp.From ∧
    (initRequestParameter utcDate utcHour rp).To = rp.To := by
  simp [initRequestParameter, hf, ht]

theorem initRequestParameter_explicit_dates_unchanged_witness :
    (initRequestParameter ⟨2024, 3, 1⟩ 20
      ⟨"2024-01-01", "2024-01-05", "", "", "go", 3⟩).From = "2024-01-01" ∧
    (initRequestParameter ⟨2024, 3, 1⟩ 20
      ⟨"2024-01-01", "2024-01-05", "", "", "go", 3⟩).To = "2024-01-05" :=
  initRequestParameter_explicit_dates_unchanged _ _ _ (by decide) (by decide)

/-- C8: notificationSlack posts to the configured webhook URL with a JSON
content type and a body that splices the message verbatim between the
fixed prefix and suffix, and that body differs from what quote-escaping
would produce. -/
theorem notificationSlack_request_unescaped (env : Env) (message : String) :
    notificationSlackRequest env message =
      ⟨"POST", env.WebhookURL, "application/json",
        "\x7b\"text\":\"" ++ message ++ "\"\x7d"⟩
    ∧ slackParams "a\"b" ≠ "\x7b\"text\":\"" ++ jsonEscape "a\"b" ++ "\"\x7d" :=
  ⟨rfl, by decide⟩

/-- C2: a rule whose decoded total is at or below its limit makes the loop
return the exact below-threshold string with a nil error, and no message
is handed to the notifier at or after that rule. -/
theorem handleLoop_below_threshold_returns (p : RequestParameter)
    (news : Nat → NewsFetch) (slack : Nat → SlackResult)
    (key : PickupKey) (keys : List PickupKey) (i j : Nat)
    (st : Int) (r : NewsAPIRespons)
    (hr : news i = Except.ok (st, Except.ok r))
    (hle : r.TotalResults ≤ key.NoticeLowerLimit) :
    handleLoop p news slack (key :: keys) i j =
      (Outcome.ret ("TotalResult is lower NoticeLowerLimit. TotalResult:"
        ++ toString r.TotalResults ++ ", NoticeLowerLimit:"
        ++ toString key.NoticeLowerLimit ++ "\n") none, []) := by
  simp [handleLoop, hr, hle, lowerMessage]

theorem handleLoop_below_threshold_returns_witness :
    handleLoop ⟨"2024-01-01", "2024-01-02", "", "", "go", 5⟩
      (fun _ => Except.ok (200, Except.ok ⟨"ok", 3, []⟩))
      (fun _ => Except.ok 200)
      [⟨"go", 5⟩] 0 0 =
      (Outcome.ret ("TotalResult is lower NoticeLowerLimit. TotalResult:"
        ++ toString (3 : Int) ++ ", NoticeLowerLimit:"
        ++ toString (5 : Int) ++ "\n") none, []) :=
  handleLoop_below_threshold_returns _ _ _ _ _ _ _ 200 ⟨"ok", 3, []⟩ rfl (by decide)

/-- C5: an empty From becomes the Asia/Tokyo current date minus one day
and an empty To the Asia/Tokyo current date, both formatted 2006-01-02. -/
theorem initRequestParameter_empty_defaults (utcDate : CivilDate)
    (utcHour : Nat) (rp : RequestParameter) :
    (rp.From = "" → (initRequestParameter utcDate utcHour rp).From
        = formatDate (prevDay (tokyoDateOfUTC utcDate utcHour)))
    ∧ (rp.To = "" → (initRequestParameter utcDate utcHour rp).To
        = formatDate (tokyoDateOfUTC utcDate utcHour)) := by
  constructor <;> intro h <;> simp [initRequestParameter, h]

theorem initRequestParameter_empty_defaults_witness :
    (initRequestParameter ⟨2024, 2, 29⟩ 20 ⟨"", "", "", "", "go", 3⟩).From
        = formatDate (prevDay (tokyoDateOfUTC ⟨2024, 2, 29⟩ 20))
    ∧ (initRequestParameter ⟨2024, 2, 29⟩ 20 ⟨"", "", "", "", "go", 3⟩).To
        = formatDate (tokyoDateOfUTC ⟨2024, 2, 29⟩ 20) :=
  ⟨(initRequestParameter_empty_defaults _ _ _).1 rfl,
   (initRequestParameter_empty_defaults _ _ _).2 rfl⟩

/-- C3: a rule whose decoded total exceeds its limit hands the notifier
exactly one message for that rule, the header followed by one numbered
line per article in response order, before the loop moves on. -/
theorem handleLoop_above_threshold_notifies_once (p : RequestParameter)
    (news : Nat → NewsFetch) (slack : Nat → SlackResult)
    (key : PickupKey) (keys : List PickupKey) (i j : Nat)
    (st : Int) (r : NewsAPIRespons) (c : Int)
    (hr : news i = Except.ok (st, Except.ok r))
    (hgt : key.NoticeLowerLimit < r.TotalResults)
    (hs : slack j = Except.ok c) :
    handleLoop p news slack (key :: keys) i j =
      ((handleLoop p news slack keys (i + 1) (j + 1)).1,
        (messageHeader key.Keyword r.TotalResults p.From p.To
            ++ articleLines r.Articles)
          :: (handleLoop p news slack keys (i + 1) (j + 1)).2) := by
  have hnle : ¬ r.TotalResults ≤ key.NoticeLowerLimit := not_le.mpr hgt
  have hdetail : messageDetail 0 r.Articles = articleLines r.Articles := by
    simpa [articleLines, List.enum] using messageDetail_eq_articleLines 0 r.Articles
  simp [handleLoop, hr, hnle, hs, hdetail]

theorem handleLoop_above_threshold_notifies_once_witness :
    handleLoop ⟨"f", "t", "", "", "go", 3⟩
      (fun _ => Except.ok (200, Except.ok ⟨"ok", 10,
        [⟨⟨"i", "n"⟩, "a", "T", "d", "u", "g", "q", "c"⟩]⟩))
      (fun _ => Except.ok 200) [⟨"go", 3⟩] 0 0 =
      ((handleLoop ⟨"f", "t", "", "", "go", 3⟩
          (fun _ => Except.ok (200, Except.ok ⟨"ok", 10,
            [⟨⟨"i", "n"⟩, "a", "T", "d", "u", "g", "q", "c"⟩]⟩))
          (fun _ => Except.ok 200) [] 1 1).1,
        (messageHeader "go" 10 "f" "t"
            ++ articleLines [⟨⟨"i", "n"⟩, "a", "T", "d", "u", "g", "q", "c"⟩])
          :: (handleLoop ⟨"f", "t", "", "", "go", 3⟩
            (fun _ => Except.ok (200, Except.ok ⟨"ok", 10,
              [⟨⟨"i", "n"⟩, "a", "T", "d", "u", "g", "q", "c"⟩]⟩))
            (fun _ => Except.ok 200) [] 1 1).2) :=
  handleLoop_above_threshold_notifies_once ⟨"f", "t", "", "", "go", 3⟩
    (fun _ => Except.ok (200, Except.ok ⟨"ok", 10,
      [⟨⟨"i", "n"⟩, "a", "T", "d", "u", "g", "q", "c"⟩]⟩))
    (fun _ => Except.ok 200) ⟨"go", 3⟩ [] 0 0 200
    ⟨"ok", 10, [⟨⟨"i", "n"⟩, "a", "T", "d", "u", "g", "q", "c"⟩]⟩ 200
    rfl (by decide) rfl

theorem handleLoop_ret_err_none (p : RequestParameter) (news : Nat → NewsFetch)
    (slack : Nat → SlackResult) (keys : List PickupKey) :
    ∀ i j msg e, (handleLoop p news slack keys i j).1 = Outcome.ret msg e →
      e = none := by
  induction keys with
  | nil =>
      intro i j msg e h
      simp [handleLoop] at h
      exact h.2.symm
  | cons key rest ih =>
      intro i j msg e h
      rcases hn : news i with e1 | ⟨st, dec⟩
      · simp [handleLoop, hn] at h
      · rcases dec with e2 | naResp
        · simp [handleLoop, hn] at h
        · by_cases hle : naResp.TotalResults ≤ key.NoticeLowerLimit
          · simp [handleLoop, hn, hle] at h
            exact h.2.symm
          · rcases hs : slack j with e3 | c
            · simp [handleLoop, hn, hle, hs] at h
            · simp [handleLoop, hn, hle, hs] at h
              exact ih (i + 1) (j + 1) msg e h

/-- C9: on every path of HandleRequest that returns rather than exits,
the returned Go error slot is nil. -/
theorem HandleRequest_error_always_nil (envRes : Except String Env)
    (s3 : Except String (Except String (List PickupKey)))
    (news : Nat → NewsFetch) (slack : Nat → SlackResult)
    (utcDate : CivilDate) (utcHour : Nat) (rp : RequestParameter)
    (msg : String) (e : Option String)
    (h : (HandleRequest envRes s3 news slack utcDate utcHour rp).1
        = Outcome.ret msg e) :
    e = none := by
  rcases envRes with e1 | env
  · simp [HandleRequest] at h
  · rcases hk : loadPickupKeys (initRequestParameter utcDate utcHour rp) s3
      with e2 | keys
    · simp [HandleRequest, hk] at h
    · simp [HandleRequest, hk] at h
      exact handleLoop_ret_err_none _ _ _ _ 0 0 msg e h

theorem HandleRequest_error_always_nil_witness :
    (HandleRequest (Except.ok ⟨"k", "u"⟩) (Except.ok (Except.ok []))
      (fun _ => Except.ok (200, Except.ok ⟨"ok", 3, []⟩))
      (fun _ => Except.ok 200) ⟨2024, 1, 3⟩ 0
      ⟨"2024-01-01", "2024-01-02", "", "", "go", 5⟩).1
        = Outcome.ret (lowerMessage 3 5) none
    ∧ (none : Option String) = none :=
  ⟨rfl, HandleRequest_error_always_nil (Except.ok ⟨"k", "u"⟩)
    (Except.ok (Except.ok []))
    (fun _ => Except.ok (200, Except.ok ⟨"ok", 3, []⟩))
    (fun _ => Except.ok 200) ⟨2024, 1, 3⟩ 0
    ⟨"2024-01-01", "2024-01-02", "", "", "go", 5⟩ (lowerMessage 3 5) none rfl⟩

theorem handleLoop_all_above_aux (p : RequestParameter) (news : Nat → NewsFetch)
    (slack : Nat → SlackResult) :
    ∀ (keys : List PickupKey) (i j : Nat),
    (∀ k, k < keys.length → ∃ key st r, keys.get? k = some key ∧
        news (i + k) = Except.ok (st, Except.ok r) ∧
        key.NoticeLowerLimit < r.TotalResults) →
    (∀ k, k < keys.length → ∃ c, slack (j + k) = Except.ok c) →
    (handleLoop p news slack keys i j).1
        = Outcome.ret "Success notification." none := by
  intro keys
  induction keys with
  | nil => intro i j _ _; simp [handleLoop]
  | cons key rest ih =>
      intro i j habove hslack
      obtain ⟨key0, st, r, hget, hn, hlt⟩ := habove 0 (by simp)
      obtain ⟨c, hs⟩ := hslack 0 (by simp)
      have hkey : key0 = key := by simpa using hget.symm
      subst hkey
      have hn' : news i = Except.ok (st, Except.ok r) := by simpa using hn
      have hs' : slack j = Except.ok c := by simpa using hs
      have hnle : ¬ r.TotalResults ≤ key0.NoticeLowerLimit := not_le.mpr hlt
      have hrec := ih (i + 1) (j + 1)
        (fun k hk => by
          obtain ⟨key', st', r', hg, hn2, hlt2⟩ :=
            habove (k + 1) (by simpa using Nat.succ_lt_succ hk)
          exact ⟨key', st', r', by simpa using hg,
            by rw [show i + 1 + k = i + (k + 1) by omega]; exact hn2, hlt2⟩)
        (fun k hk => by
          obtain ⟨c', hc'⟩ := hslack (k + 1) (by simpa using Nat.succ_lt_succ hk)
          exact ⟨c', by rw [show j + 1 + k = j + (k + 1) by omega]; exact hc'⟩)
      simp [handleLoop, hn', hnle, hs', hrec]

/-- C7: when every rule's decoded total exceeds its limit and every
webhook post goes through at transport level, the loop runs to the end
and the run returns the success string with a nil error, whatever HTTP
status codes, 200 or not, the webhook answered with. -/
theorem handleLoop_completes_success (p : RequestParameter)
    (news : Nat → NewsFetch) (slack : Nat → SlackResult)
    (keys : List PickupKey)
    (habove : ∀ k, k < keys.length → ∃ key st r, keys.get? k = some key ∧
        news k = Except.ok (st, Except.ok r) ∧
        key.NoticeLowerLimit < r.TotalResults)
    (hslack : ∀ k, k < keys.length → ∃ c, slack k = Except.ok c) :
    (handleLoop p news slack keys 0 0).1
        = Outcome.ret "Success notification." none :=
  handleLoop_all_above_aux p news slack keys 0 0
    (by simpa using habove) (by simpa using hslack)

theorem handleLoop_completes_success_witness :
    (handleLoop ⟨"f", "t", "", "", "go", 3⟩
      (fun _ => Except.ok (200, Except.ok ⟨"ok", 10, []⟩))
      (fun _ => Except.ok 500) [⟨"go", 3⟩] 0 0).1
        = Outcome.ret "Success notification." none :=
  handleLoop_completes_success _ _ _ _
    (by
      intro k hk
      have hk0 : k = 0 := by simp at hk; omega
      subst hk0
      exact ⟨⟨"go", 3⟩, 200, ⟨"ok", 10, []⟩, rfl, rfl, by decide⟩)
    (fun k _ => ⟨500, rfl⟩)

theorem handleLoop_early_aux (p : RequestParameter) (news : Nat → NewsFetch)
    (slack : Nat → SlackResult) :
    ∀ (n : Nat) (keys : List PickupKey) (i j : Nat) (key : PickupKey)
      (st : Int) (r : NewsAPIRespons),
    keys.get? n = some key →
    news (i + n) = Except.ok (st, Except.ok r) →
    r.TotalResults ≤ key.NoticeLowerLimit →
    (∀ k, k < n → ∃ key2 st2 r2, keys.get? k = some key2 ∧
        news (i + k) = Except.ok (st2, Except.ok r2) ∧
        key2.NoticeLowerLimit < r2.TotalResults) →
    (∀ k, k < n → ∃ c, slack (j + k) = Except.ok c) →
    (handleLoop p news slack keys i j).1
        = Outcome.ret (lowerMessage r.TotalResults key.NoticeLowerLimit) none
    ∧ (handleLoop p news slack keys i j).2.length = n
    ∧ ∀ (news2 : Nat → NewsFetch) (slack2 : Nat → SlackResult),
        (∀ k, k ≤ n → news2 (i + k) = news (i + k)) →
        (∀ k, k < n → slack2 (j + k) = slack (j + k)) →
        handleLoop p news2 slack2 keys i j = handleLoop p news slack keys i j := by
  intro n
  induction n with
  | zero =>
      intro keys i j key st r hget hn hle _ _
      cases keys with
      | nil => simp at hget
      | cons k0 rest =>
          have hk0 : k0 = key := by simpa using hget
          subst hk0
          have hn' : news i = Except.ok (st, Except.ok r) := by simpa using hn
          refine ⟨?_, ?_, ?_⟩
          · simp [handleLoop, hn', hle]
          · simp [handleLoop, hn', hle]
          · intro news2 slack2 hne _
            have hne0 : news2 i = news i := by simpa using hne 0 (Nat.le_refl 0)
            simp [handleLoop, hne0, hn', hle]
  | succ n ih =>
      intro keys i j key st r hget hn hle habove hslack
      cases keys with
      | nil => simp at hget
      | cons k0 rest =>
          obtain ⟨key2, st2, r2, hg0, hn0, hlt0⟩ := habove 0 (Nat.succ_pos n)
          have hk2 : k0 = key2 := by simpa using hg0
          subst hk2
          obtain ⟨c, hsc⟩ := hslack 0 (Nat.succ_pos n)
          have hn0' : news i = Except.ok (st2, Except.ok r2) := by simpa using hn0
          have hs0' : slack j = Except.ok c := by simpa using hsc
          have hnle : ¬ r2.TotalResults ≤ k0.NoticeLowerLimit := not_le.mpr hlt0
          have hget' : rest.get? n = some key := by simpa using hget
          have hn'' : news (i + 1 + n) = Except.ok (st, Except.ok r) := by
            rw [show i + 1 + n = i + (n + 1) by omega]; exact hn
          have habove' : ∀ k, k < n → ∃ key3 st3 r3, rest.get? k = some key3 ∧
              news (i + 1 + k) = Except.ok (st3, Except.ok r3) ∧
              key3.NoticeLowerLimit < r3.TotalResults := by
            intro k hk
            obtain ⟨key3, st3, r3, hg, hn3, hlt3⟩ :=
              habove (k + 1) (Nat.succ_lt_succ hk)
            exact ⟨key3, st3, r3, by simpa using hg,
              by rw [show i + 1 + k = i + (k + 1) by omega]; exact hn3, hlt3⟩
          have hslack' : ∀ k, k < n → ∃ c2, slack (j + 1 + k) = Except.ok c2 := by
            intro k hk
            obtain ⟨c2, hc2⟩ := hslack (k + 1) (Nat.succ_lt_succ hk)
            exact ⟨c2, by rw [show j + 1 + k = j + (k + 1) by omega]; exact hc2⟩
          obtain ⟨ih1, ih2, ih3⟩ :=
            ih rest (i + 1) (j + 1) key st r hget' hn'' hle habove' hslack'
          refine ⟨?_, ?_, ?_⟩
          · simp [handleLoop, hn0', hnle, hs0', ih1]
          · simp [handleLoop, hn0', hnle, hs0', ih2]
          · intro news2 slack2 hne hse
            have hne0 : news2 i = news i := by simpa using hne 0 (Nat.zero_le _)
            have hse0 : slack2 j = slack j := by simpa using hse 0 (Nat.succ_pos n)
            have hrec := ih3 news2 slack2
              (fun k hk => by
                rw [show i + 1 + k = i + (k + 1) by omega]
                exact hne (k + 1) (Nat.succ_le_succ hk))
              (fun k hk => by
                rw [show j + 1 + k = j + (k + 1) by omega]
                exact hse (k + 1) (Nat.succ_lt_succ hk))
            simp [handleLoop, hne0, hn0', hnle, hse0, hs0', hrec]

/-- C1: processing stops at the first rule whose decoded total is at or
below its limit: the run returns the below-threshold message there with a
nil error, exactly one notification went out per earlier rule, and the
whole result is unchanged under any alteration of the news and webhook
oracles past that rule, so no later rule is queried or notified, even one
whose result would be above threshold. -/
theorem handleLoop_first_below_short_circuits (p : RequestParameter)
    (news : Nat → NewsFetch) (slack : Nat → SlackResult)
    (keys : List PickupKey) (n : Nat) (key : PickupKey)
    (st : Int) (r : NewsAPIRespons)
    (hget : keys.get? n = some key)
    (hr : news n = Except.ok (st, Except.ok r))
    (hle : r.TotalResults ≤ key.NoticeLowerLimit)
    (habove : ∀ k, k < n → ∃ key2 st2 r2, keys.get? k = some key2 ∧
        news k = Except.ok (st2, Except.ok r2) ∧
        key2.NoticeLowerLimit < r2.TotalResults)
    (hslack : ∀ k, k < n → ∃ c, slack k = Except.ok c) :
    (handleLoop p news slack keys 0 0).1
        = Outcome.ret (lowerMessage r.TotalResults key.NoticeLowerLimit) none
    ∧ (handleLoop p news slack keys 0 0).2.length = n
    ∧ ∀ (news2 : Nat → NewsFetch) (slack2 : Nat → SlackResult),
        (∀ k, k ≤ n → news2 k = news k) →
        (∀ k, k < n → slack2 k = slack k) →
        handleLoop p news2 slack2 keys 0 0
          = handleLoop p news slack keys 0 0 := by
  have h := handleLoop_early_aux p news slack n keys 0 0 key st r
    (by simpa using hget) (by simpa using hr) hle
    (by simpa using habove) (by simpa using hslack)
  simpa using h

theorem handleLoop_first_below_short_circuits_witness :
    (handleLoop ⟨"f", "t", "", "", "go", 3⟩
      (fun k => if k = 0 then Except.ok (200, Except.ok ⟨"ok", 10, []⟩)
        else Except.ok (200, Except.ok ⟨"ok", 2, []⟩))
      (fun _ => Except.ok 200) [⟨"a", 3⟩, ⟨"b", 3⟩, ⟨"c", 3⟩] 0 0).1
        = Outcome.ret (lowerMessage 2 3) none
    ∧ (handleLoop ⟨"f", "t", "", "", "go", 3⟩
      (fun k => if k = 0 then Except.ok (200, Except.ok ⟨"ok", 10, []⟩)
        else Except.ok (200, Except.ok ⟨"ok", 2, []⟩))
      (fun _ => Except.ok 200) [⟨"a", 3⟩, ⟨"b", 3⟩, ⟨"c", 3⟩] 0 0).2.length = 1 := by
  have h := handleLoop_first_below_short_circuits ⟨"f", "t", "", "", "go", 3⟩
    (fun k => if k = 0 then Except.ok (200, Except.ok ⟨"ok", 10, []⟩)
      else Except.ok (200, Except.ok ⟨"ok", 2, []⟩))
    (fun _ => Except.ok 200) [⟨"a", 3⟩, ⟨"b", 3⟩, ⟨"c", 3⟩] 1 ⟨"b", 3⟩
    200 ⟨"ok", 2, []⟩ rfl rfl (by decide)
    (by
      intro k hk
      have hk0 : k = 0 := by omega
      subst hk0
      exact ⟨⟨"a", 3⟩, 200, ⟨"ok", 10, []⟩, rfl, rfl, by decide⟩)
    (fun k _ => ⟨200, rfl⟩)
  exact ⟨h.1, h.2.1⟩

theorem foldl_setPickupKeyField_limit :
    ∀ (fields : List (String × JsonValue)) (pk : PickupKey),
      (∀ kv ∈ fields, lowerName kv.1 ≠ "noticelowerlimit") →
      (fields.foldl setPickupKeyField pk).NoticeLowerLimit
        = pk.NoticeLowerLimit := by
  intro fields
  induction fields with
  | nil => intro pk _; rfl
  | cons kv rest ih =>
      intro pk h
      have hkv : lowerName kv.1 ≠ "noticelowerlimit" := h kv (by simp)
      rw [List.foldl_cons, ih _ (fun kv2 hm => h kv2 (by simp [hm]))]
      by_cases hk : lowerName kv.1 = "keyword"
      · cases hv : kv.2 <;> simp [setPickupKeyField, hk, hv]
      · simp [setPickupKeyField, hk, hkv]

/-- C10: an external rule whose JSON object has no noticeLowerLimit member
decodes with the zero limit, so the loop notifies for that rule whenever
its decoded total is at least one and takes the below-threshold early
return when the total is zero. -/
theorem decodePickupKey_missing_limit_zero (fields : List (String × JsonValue))
    (hno : ∀ kv ∈ fields, lowerName kv.1 ≠ "noticelowerlimit") :
    (decodePickupKey fields).NoticeLowerLimit = 0
    ∧ ∀ (p : RequestParameter) (news : Nat → NewsFetch)
        (slack : Nat → SlackResult) (keys : List PickupKey) (i j : Nat)
        (st : Int) (r : NewsAPIRespons),
        news i = Except.ok (st, Except.ok r) →
        (1 ≤ r.TotalResults →
          ((handleLoop p news slack
              (decodePickupKey fields :: keys) i j).2).head?
            = some (messageHeader (decodePickupKey fields).Keyword
                r.TotalResults p.From p.To ++ messageDetail 0 r.Articles))
        ∧ (r.TotalResults = 0 →
          (handleLoop p news slack
              (decodePickupKey fields :: keys) i j).1
            = Outcome.ret (lowerMessage 0 0) none) := by
  have h0 : (decodePickupKey fields).NoticeLowerLimit = 0 :=
    foldl_setPickupKeyField_limit fields ⟨"", 0⟩ hno
  refine ⟨h0, ?_⟩
  intro p news slack keys i j st r hr
  constructor
  · intro h1
    have hnle : ¬ r.TotalResults ≤ (decodePickupKey fields).NoticeLowerLimit := by
      rw [h0]; omega
    rcases hs : slack j with e | c <;> simp [handleLoop, hr, hnle, hs]
  · intro hz
    have hle : r.TotalResults ≤ (decodePickupKey fields).NoticeLowerLimit := by
      rw [h0, hz]
    simp [handleLoop, hr, hle, h0, hz]

theorem decodePickupKey_missing_limit_zero_witness :
    (decodePickupKey [("keyword", JsonValue.str "go")]).NoticeLowerLimit = 0
    ∧ ((handleLoop ⟨"f", "t", "", "", "go", 3⟩
        (fun _ => Except.ok (200, Except.ok ⟨"ok", 2, []⟩))
        (fun _ => Except.ok 200)
        (decodePickupKey [("keyword", JsonValue.str "go")] :: []) 0 0).2).head?
          = some (messageHeader
              (decodePickupKey [("keyword", JsonValue.str "go")]).Keyword
              2 "f" "t" ++ messageDetail 0 []) := by
  have h := decodePickupKey_missing_limit_zero
    [("keyword", JsonValue.str "go")] (by decide)
  exact ⟨h.1, (h.2 ⟨"f", "t", "", "", "go", 3⟩
    (fun _ => Except.ok (200, Except.ok ⟨"ok", 2, []⟩))
    (fun _ => Except.ok 200) [] 0 0 200 ⟨"ok", 2, []⟩ rfl).1 (by decide)⟩
